import Mathlib

/-!
Verification of the multi-agent MPC simulator (`src/system.py`,
`src/optimizer/mpc_solver.py`) against its natural-language specification.

The Python code is shallowly embedded: numpy 2-D arrays become `PyMat`
(explicit row/column counts plus an entry function, so that shape
assertions and slice assignment can be modelled exactly), 1-D arrays
become `List ℚ`, and Python `assert` / `raise` become `Except String`.
External libraries (scipy's `fclusterdata`, `hdbscan`, numpy's
`linalg.norm`) are passed in as oracle functions, exactly as the code
treats them as black boxes.  Floating-point numbers are idealised as
rational numbers.
-/

set_option autoImplicit false

namespace CoalControl

/-- A numpy 2-D array: a shape together with an entry function.
Entries outside the shape are irrelevant (numpy operations below only
ever read entries `i < rows`, `j < cols`). -/
structure PyMat where
  rows : Nat
  cols : Nat
  entry : Nat → Nat → ℚ

/-- `np.zeros((m, n))`. -/
def PyMat.zeros (m n : Nat) : PyMat := ⟨m, n, fun _ _ => 0⟩

/-- Slice assignment `M[r : r+dr, c : c+dc] = Blk` on a numpy array. -/
def PyMat.setBlock (M : PyMat) (r c : Nat) (Blk : PyMat) (dr dc : Nat) : PyMat :=
  ⟨M.rows, M.cols, fun i j =>
    if r ≤ i ∧ i < r + dr ∧ c ≤ j ∧ j < c + dc then Blk.entry (i - r) (j - c)
    else M.entry i j⟩

/-- Elementwise sum of two equal-length numpy vectors. -/
def vadd (v w : List ℚ) : List ℚ := List.zipWith (· + ·) v w

/-- Elementwise difference of two equal-length numpy vectors
(also the row-wise broadcast `row - goal`). -/
def vsub (v w : List ℚ) : List ℚ := List.zipWith (· - ·) v w

/-- Scalar multiple `c * v` of a numpy vector. -/
def vscale (c : ℚ) (v : List ℚ) : List ℚ := v.map (fun x => c * x)

/-- Matrix–vector product `M @ v`: entry `i` is `∑ j, M[i,j] * v[j]`. -/
def matVec (M : PyMat) (v : List ℚ) : List ℚ :=
  (List.range M.rows).map fun i => ∑ j ∈ Finset.range M.cols, M.entry i j * v.getD j 0

/-- `cvxpy.quad_form(v, M)`, i.e. `vᵀ M v`. -/
def quadForm (M : PyMat) (v : List ℚ) : ℚ :=
  ∑ i ∈ Finset.range M.rows, ∑ j ∈ Finset.range M.cols,
    v.getD i 0 * M.entry i j * v.getD j 0

/-! ## `src/system.py`: `LinearAgentNd` -/

/-- Linear agent with `x[t+1] = A x[t] + B u[t]` dynamics
(`src/system.py`, class `LinearAgentNd`). -/
structure LinearAgentNd where
  A : PyMat
  B : PyMat
  state : List ℚ
  agent_dim : Nat

/-- `LinearAgentNd.__init__` (`src/system.py` lines 13–29).  The three
`assert` statements become error paths, in source order:
`init_state.size == agent_dim`, `A.shape == (agent_dim, agent_dim)`,
`B.shape[1] == agent_dim`.  Note that the last assertion constrains the
number of COLUMNS of `B`. -/
def LinearAgentNd.make (A B : PyMat) (agent_dim : Nat) (init_state : List ℚ) :
    Except String LinearAgentNd :=
  if init_state.length ≠ agent_dim then .error "AssertionError"
  else if ¬(A.rows = agent_dim ∧ A.cols = agent_dim) then .error "AssertionError"
  else if B.cols ≠ agent_dim then .error "AssertionError"
  else .ok ⟨A, B, init_state, agent_dim⟩

/-- `LinearAgentNd.propagate_input` (`src/system.py` lines 31–33):
`self.state = self.A @ self.state + self.B @ control_val`. -/
def LinearAgentNd.propagate_input (ag : LinearAgentNd) (control_val : List ℚ) :
    LinearAgentNd :=
  { ag with state := vadd (matVec ag.A ag.state) (matVec ag.B control_val) }

/-- `LinearAgentNd.set_state` (`src/system.py` lines 36–39), with its
`assert self.state.shape == input_state.shape` (for 1-D arrays, equality
of lengths). -/
def LinearAgentNd.set_state (ag : LinearAgentNd) (input_state : List ℚ) :
    Except String LinearAgentNd :=
  if ag.state.length = input_state.length then .ok { ag with state := input_state }
  else .error "AssertionError"

/-! ## `src/system.py`: `LinearClusterNd` -/

/-- `np.mean(rows, axis=0)` for an `n × D` array stored as a list of rows. -/
def meanRows (rows : List (List ℚ)) (D : Nat) : List ℚ :=
  (List.range D).map fun j => ((rows.map fun r => r.getD j 0).sum) / (rows.length : ℚ)

/-- Linear cluster of agents (`src/system.py`, class `LinearClusterNd`).
The `agents` dictionary keeps the agents' global indices as keys. -/
structure LinearClusterNd where
  agents : List (Nat × LinearAgentNd)
  n_agents : Nat
  full_cluster_state : List (List ℚ)
  centroid : List ℚ

/-- `LinearClusterNd.update_centroid` (`src/system.py` lines 67–72):
row `idx` of `full_cluster_state` is overwritten with agent `idx`'s state
(the loop covers every row), then the centroid is the column mean
(`axis=0`); the column count `agent_dim` is passed explicitly here. -/
def LinearClusterNd.update_centroid (cl : LinearClusterNd) (agent_dim : Nat) :
    LinearClusterNd :=
  let fcs := cl.agents.map fun p => p.2.state
  { cl with full_cluster_state := fcs, centroid := meanRows fcs agent_dim }

/-- `LinearClusterNd.__init__` (`src/system.py` lines 45–59), with its
`assert n_agents == len(agents)`. -/
def LinearClusterNd.make (agents : List (Nat × LinearAgentNd)) (n_agents : Nat)
    (agent_dim : Nat) : Except String LinearClusterNd :=
  if n_agents = agents.length then
    .ok (LinearClusterNd.update_centroid
      ⟨agents, n_agents, List.replicate n_agents (List.replicate agent_dim 0), []⟩ agent_dim)
  else .error "AssertionError"

/-- `LinearClusterNd.propagate_input` (`src/system.py` lines 61–65):
every member agent receives the same meso-scale control, then the
centroid is recomputed. -/
def LinearClusterNd.propagate_input (cl : LinearClusterNd) (control_val : List ℚ)
    (agent_dim : Nat) : LinearClusterNd :=
  LinearClusterNd.update_centroid
    { cl with agents := cl.agents.map fun p => (p.1, p.2.propagate_input control_val) }
    agent_dim

/-! ## `src/system.py`: `MultiAgentSystem` -/

/-- A throwaway agent used as the `getD` fallback when indexing the agent
list; every access is guarded by an index bound, so it is never read. -/
def dummyAgent : LinearAgentNd := ⟨PyMat.zeros 0 0, PyMat.zeros 0 0, [], 0⟩

/-- The external libraries the orchestrator calls as black boxes:
`scipy.cluster.hierarchy.fclusterdata` (returns 1-based integer labels),
`hdbscan.HDBSCAN(alpha, leaf_size, min_cluster_size, min_samples=1)`
fitted labels, and `np.linalg.norm` on one row (the 2-norm). -/
structure ExternalLibs where
  fclusterdata : List (List ℚ) → ℚ → List Nat
  hdbscanLabels : ℚ → ℚ → ℚ → List (List ℚ) → List Nat
  norm2 : List ℚ → ℚ

/-- Modelled from the spec: the orchestrator imports `mpc_solver` from
`src.opt` and calls `mpc_solver.use_modeling_tool(A, B, n_t, Q, R, P, x0,
x_star_in, umax, umin)`; that module is not part of the sources here.
Per the spec (§4.4, single-scale solve) it constructs and solves the
single-scale MPC quadratic program and returns the optimal state
trajectory (`nx × (n_t+1)`), the optimal control trajectory, and the
achieved scalar cost.  The numerical optimum is represented by an
abstract solver function. -/
structure MpcTool where
  use_modeling_tool : PyMat → PyMat → Nat → PyMat → PyMat → PyMat → List ℚ → List ℚ →
    Option ℚ → Option ℚ → List (List ℚ) × List (List ℚ) × ℚ

/-- The orchestrator state (`src/system.py`, class `MultiAgentSystem`).
The agents dictionary has keys exactly `0 .. n_agents-1` (they index the
rows of `full_system_state`), so it is kept as a list.  The cluster
bookkeeping fields are created by `_re_eval_clusters`; before the first
re-evaluation they hold empty placeholders.  `avg_goal_dist` starts at
`np.inf` in the source; infinity is not rational, so the placeholder `0`
is used — the constructor overwrites it before it can be read.
Wall-clock accounting (`time.time()` differences added to
`control_solution_time`) is not modelled. -/
structure MultiAgentSystem where
  n_agents : Nat
  agent_dim : Nat
  control_dim : Nat
  full_system_state : List (List ℚ)
  system_goal : List ℚ
  agents : List LinearAgentNd
  clust_algo : String
  clust_algo_params : List ℚ
  avg_goal_dist : ℚ
  control_solution_time : ℚ
  clust_labels : List Nat
  n_clusters : Nat
  clusters : List LinearClusterNd
  cluster_centroids : List (List ℚ)

/-- The tail of `_re_eval_clusters` (`src/system.py` lines 138–148): from
the fresh labels, `n_clusters = max(labels) + 1`, and for every
`cdx < n_clusters` a `LinearClusterNd` is built over the agents whose
label is `cdx` (its constructor assertion `n_agents == len(agents)` holds
definitionally here, and its `update_centroid` runs as in the
constructor).  `max` of an empty label array would raise in numpy; the
fold's base `0` is only reachable with zero agents. -/
def rebuildClusters (s : MultiAgentSystem) (labels : List Nat) : MultiAgentSystem :=
  let n_clusters := labels.foldl Nat.max 0 + 1
  let clusters := (List.range n_clusters).map fun cdx =>
    let members := s.agents.enum.filter fun p => labels.getD p.1 0 = cdx
    LinearClusterNd.update_centroid
      ⟨members, members.length,
       List.replicate members.length (List.replicate s.agent_dim 0), []⟩ s.agent_dim
  { s with
    clust_labels := labels
    n_clusters := n_clusters
    clusters := clusters
    cluster_centroids := clusters.map (·.centroid) }

/-- `MultiAgentSystem._re_eval_clusters` (`src/system.py` lines 116–148):
dispatch on the configured algorithm string.  `hierarchy` uses
`fclusterdata(state, thresh, criterion='distance') - 1`; `hdbscan`
unpacks its three parameters (a wrong parameter count raises) and takes
the fitted labels; any other selector raises
`ValueError("Cluster identification algorithm not implemented")` before
any field is modified. -/
def MultiAgentSystem.re_eval_clusters (libs : ExternalLibs) (s : MultiAgentSystem) :
    Except String MultiAgentSystem :=
  let algo := s.clust_algo
  let algo_parameters := s.clust_algo_params
  if algo = "hierarchy" then
    let thresh := algo_parameters.getD 0 0
    .ok (rebuildClusters s ((libs.fclusterdata s.full_system_state thresh).map (· - 1)))
  else if algo = "hdbscan" then
    match algo_parameters with
    | [alpha, leaf_size, min_cluster_size] =>
        .ok (rebuildClusters s
          (libs.hdbscanLabels alpha leaf_size min_cluster_size s.full_system_state))
    | _ => .error "ValueError: unpacking algo_parameters failed"
  else .error "Cluster identification algorithm not implemented"

/-- `MultiAgentSystem._re_eval_system` (`src/system.py` lines 109–114):
the loop writes row `idx` of `full_system_state` for every key `idx` of
the agents dictionary (exactly `0 .. n_agents-1`), replacing every row —
functionally, the map of `state` over the agents; then
`avg_goal_dist = np.linalg.norm(full_state - goal, axis=1).mean(axis=0)`;
then clusters are re-evaluated. -/
def MultiAgentSystem.re_eval_system (libs : ExternalLibs) (s : MultiAgentSystem) :
    Except String MultiAgentSystem :=
  let fs := s.agents.map (·.state)
  let d := ((fs.map fun row => libs.norm2 (vsub row s.system_goal)).sum) / (fs.length : ℚ)
  MultiAgentSystem.re_eval_clusters libs
    { s with full_system_state := fs, avg_goal_dist := d }

/-- `MultiAgentSystem.__init__` (`src/system.py` lines 78–107).  The
agent dictionary produced by the external state generator is passed in
directly (the generator is an external collaborator, spec §6). -/
def MultiAgentSystem.make (libs : ExternalLibs) (n_agents agent_dim control_dim : Nat)
    (global_goal : List ℚ) (agents : List LinearAgentNd)
    (clust_algo : String) (clust_algo_params : List ℚ) :
    Except String MultiAgentSystem :=
  MultiAgentSystem.re_eval_system libs
    { n_agents := n_agents
      agent_dim := agent_dim
      control_dim := control_dim
      full_system_state := List.replicate n_agents (List.replicate agent_dim 0)
      system_goal := global_goal
      agents := agents
      clust_algo := clust_algo
      clust_algo_params := clust_algo_params
      avg_goal_dist := 0
      control_solution_time := 0
      clust_labels := []
      n_clusters := 0
      clusters := []
      cluster_centroids := [] }

/-- Attribute access `cluster.centroid` where `cluster` is an `int`: in
`update_system_simplified` the loop header `for cluster in self.clusters`
iterates over the clusters DICTIONARY, which yields its integer keys, so
this access raises `AttributeError`. -/
def intKeyCentroid (_cluster : Nat) : Except String (List ℚ) :=
  .error "AttributeError: int object has no attribute centroid"

/-- `MultiAgentSystem.update_system_simplified` (`src/system.py` lines
151–163).  The source loop is `for cluster in self.clusters:` where
`self.clusters` is the dict `{0: cluster_0, ...}` — iterating a dict
yields its KEYS, so `cluster` is an integer and the body's first
expression `cluster.centroid` raises `AttributeError` (and the later
`cluster.propagate_input(...)` would, too).  Note `self._re_eval_system()`
sits INSIDE the loop body. -/
def MultiAgentSystem.update_system_simplified (libs : ExternalLibs)
    (s : MultiAgentSystem) (step_size : ℚ) : Except String MultiAgentSystem :=
  (List.range s.n_clusters).foldlM
    (fun (st : MultiAgentSystem) cluster => do
      let centroid ← intKeyCentroid cluster
      let _meso_control := vscale step_size (vsub st.system_goal centroid)
      let st' ← (Except.error "AttributeError: int object has no attribute propagate_input" :
        Except String MultiAgentSystem)
      MultiAgentSystem.re_eval_system libs st')
    s

/-- The last column `M[:, -1]` of a numpy 2-D array stored as rows. -/
def lastCol (M : List (List ℚ)) : List ℚ := M.map fun r => r.getD (r.length - 1) 0

/-- The slice `v[a : b]` of a numpy 1-D array. -/
def listSlice (v : List ℚ) (a b : Nat) : List ℚ := (v.drop a).take (b - a)

/-- Replacing the agent collection of a system (the record update
`{ s with agents := X }`, named so that statements about it are
syntactically stable). -/
def withAgents (s : MultiAgentSystem) (X : List LinearAgentNd) : MultiAgentSystem :=
  { s with agents := X }

/-- The body of the per-agent loop of `update_system_mpc_distributed`
(`src/system.py` lines 184–194), one iteration for the agent at
dictionary key `adx`: solve with this agent's own `A`, `B` and current
state and the system goal as reference, accumulate its cost, commit the
terminal column of its trajectory via `set_state`, and re-evaluate the
whole system. -/
def distLoopBody (libs : ExternalLibs) (tool : MpcTool) (Q R P : PyMat) (n_t : Nat)
    (umax umin : Option ℚ) (acc : MultiAgentSystem × ℚ) (adx : Nat) :
    Except String (MultiAgentSystem × ℚ) := do
  let st := acc.1
  let agent := st.agents.getD adx dummyAgent
  -- sol = (state_dynamics, u_dynamics, cost_val_agnt)
  let sol :=
    tool.use_modeling_tool agent.A agent.B n_t Q R P agent.state
      st.system_goal umax umin
  let agent' ← agent.set_state (lastCol sol.1)
  let st := withAgents st (st.agents.set adx agent')
  let st ← MultiAgentSystem.re_eval_system libs st
  pure (st, acc.2 + sol.2.2)

/-- `MultiAgentSystem.update_system_mpc_distributed` (`src/system.py`
lines 165–197): for each agent in dictionary-key order, run
`distLoopBody` (solve, accumulate cost, commit, re-evaluate — the
re-evaluation is INSIDE the loop, after each agent), then return
`(self, avg_goal_dist, cost_val / n_agents)`; wall-clock accumulation
is not modelled. -/
def MultiAgentSystem.update_system_mpc_distributed (libs : ExternalLibs) (tool : MpcTool)
    (s : MultiAgentSystem) (Q R P : PyMat) (n_t : Nat) (umax umin : Option ℚ) :
    Except String (MultiAgentSystem × ℚ × ℚ) := do
  let acc ← (List.range s.agents.length).foldlM
    (distLoopBody libs tool Q R P n_t umax umin) (s, 0)
  pure (acc.1, acc.1.avg_goal_dist, acc.2 / (s.n_agents : ℚ))

/-- The joint block-diagonal `A` of `update_system_mpc` (`src/system.py`
lines 218–222): `np.zeros((D·n, D·n))`, then for each key `adx` the
slice `A[adx·D : (adx+1)·D, adx·D : (adx+1)·D] = agent.A`. -/
def buildJointA (s : MultiAgentSystem) : PyMat :=
  (List.range s.agents.length).foldl
    (fun M adx => M.setBlock (adx * s.agent_dim) (adx * s.agent_dim)
      (s.agents.getD adx dummyAgent).A s.agent_dim s.agent_dim)
    (PyMat.zeros (s.agent_dim * s.n_agents) (s.agent_dim * s.n_agents))

/-- The joint `B` of `update_system_mpc` (`src/system.py` lines 219–224):
`np.zeros((D·n, C·n))`, then for each key `adx` the slice
`B[adx·D : (adx+1)·D, adx·C : (adx+1)·C] = agent.B`. -/
def buildJointB (s : MultiAgentSystem) : PyMat :=
  (List.range s.agents.length).foldl
    (fun M adx => M.setBlock (adx * s.agent_dim) (adx * s.control_dim)
      (s.agents.getD adx dummyAgent).B s.agent_dim s.control_dim)
    (PyMat.zeros (s.agent_dim * s.n_agents) (s.control_dim * s.n_agents))

/-- `MultiAgentSystem.update_system_mpc` (`src/system.py` lines 199–235):
builds the joint block-diagonal `(A, B)`, flattens `full_system_state`,
tiles the goal with `np.kron(np.ones(n_agents), goal)`, performs ONE
single-scale solve, then commits each agent's slice
`state_dynamics[adx·D : (adx+1)·D, -1]` of the terminal column via
`set_state`, re-evaluates the system once at the end, and returns
`(avg_goal_dist, cost_val)`; wall-clock accumulation is not modelled. -/
def MultiAgentSystem.update_system_mpc (libs : ExternalLibs) (tool : MpcTool)
    (s : MultiAgentSystem) (Q R P : PyMat) (n_t : Nat) (umax umin : Option ℚ) :
    Except String (MultiAgentSystem × ℚ × ℚ) := do
  let A := buildJointA s
  let B := buildJointB s
  let x0 := s.full_system_state.flatten
  let goal := (List.replicate s.n_agents s.system_goal).flatten
  -- sol = (state_dynamics, u_dynamics, cost_val)
  let sol := tool.use_modeling_tool A B n_t Q R P x0 goal umax umin
  let agents' ← (List.range s.agents.length).foldlM
    (fun (ags : List LinearAgentNd) adx => do
      let agent := ags.getD adx dummyAgent
      let agent' ← agent.set_state
        (listSlice (lastCol sol.1) (adx * s.agent_dim) ((adx + 1) * s.agent_dim))
      pure (ags.set adx agent'))
    s.agents
  let s' ← MultiAgentSystem.re_eval_system libs (withAgents s agents')
  pure (s', s'.avg_goal_dist, sol.2.2)

/-! ## `src/optimizer/mpc_solver.py`

The three solve routines build a cvxpy objective and constraint list and
hand them to a numerical solver.  The objective is embedded as a rational
function of candidate trajectories (a trajectory gives the column
`x[:, t]` for each `t`), accumulated in source order; the constraint
list is embedded syntactically, one tag per `constrlist +=` element, so
that presence/absence of constraints can be reasoned about.  `psd_wrap`
only marks a matrix as PSD for cvxpy and is semantically the identity. -/

/-- The collision pairs of `conventional_solve` (`src/optimizer/
mpc_solver.py` lines 45–47): `for idx in range(nx//adim): for jdx in
range(idx+1, nx//adim)`. -/
def sepPairsConv (K : Nat) : List (Nat × Nat) :=
  (List.range K).flatMap fun idx =>
    (List.range' (idx + 1) (K - (idx + 1))).map fun jdx => (idx, jdx)

/-- The collision pairs of `microcoupling_solve` and `mesocoupling_solve`
(`src/optimizer/mpc_solver.py` lines 108–110 and 209–211):
`for idx in range(K): for jdx in range(idx+1, K - 1)` where `K` is the
number of agent blocks. -/
def sepPairsCpl (K : Nat) : List (Nat × Nat) :=
  (List.range K).flatMap fun idx =>
    (List.range' (idx + 1) (K - 1 - (idx + 1))).map fun jdx => (idx, jdx)

/-- One constraint of the single-scale problem (`conventional_solve`,
and likewise `microcoupling_solve`, whose constraint set has the same
shape): dynamics at stage `t`, elementwise state bounds at stage `t` or
at the terminal stage, whole-horizon control bounds, the initial-state
equation, or one pairwise-separation constraint at stage `t` between
agent blocks `idx` and `jdx`. -/
inductive ConvConstr where
  | dyn (t : Nat)
  | stateLB (t : Nat)
  | stateUB (t : Nat)
  | sep (t idx jdx : Nat)
  | termLB
  | termUB
  | ctrlUB
  | ctrlLB
  | initState
  deriving DecidableEq

/-- The cvxpy objective of `conventional_solve` (`src/optimizer/
mpc_solver.py` lines 25–49), accumulated in source order: for each
`t < N`, the state stage cost (with the reference subtracted when
`x_star_in` is supplied) and the control stage cost; after the loop the
terminal cost `0.5 * quad_form(x[:, N], P)`. -/
def conventionalCost (N : Nat) (Q R P : PyMat) (x_star_in : Option (List ℚ))
    (x u : Nat → List ℚ) : ℚ :=
  (List.range N).foldl
    (fun costlist t =>
      let costlist :=
        match x_star_in with
        | some x_star => costlist + 1/2 * quadForm Q (vsub (x t) x_star)
        | none => costlist + 1/2 * quadForm Q (x t)
      costlist + 1/2 * quadForm R (u t))
    0
  + 1/2 * quadForm P (x N)

/-- The cvxpy constraint list of `conventional_solve` (`src/optimizer/
mpc_solver.py` lines 26–60) in source order; `nx = B.shape[0]` and each
optional argument contributes exactly when it is supplied. -/
def conventionalConstraints (B : PyMat) (N adim : Nat)
    (umax umin : Option ℚ) (xmin xmax : Option (List ℚ)) (coll_d : Option ℚ) :
    List ConvConstr :=
  let nx := B.rows
  ((List.range N).flatMap fun t =>
    [ConvConstr.dyn t]
    ++ (if xmin.isSome then [ConvConstr.stateLB t] else [])
    ++ (if xmax.isSome then [ConvConstr.stateUB t] else [])
    ++ (if coll_d.isSome then
          (sepPairsConv (nx / adim)).map fun p => ConvConstr.sep t p.1 p.2
        else []))
  ++ (if xmin.isSome then [ConvConstr.termLB] else [])
  ++ (if xmax.isSome then [ConvConstr.termUB] else [])
  ++ (if umax.isSome then [ConvConstr.ctrlUB] else [])
  ++ (if umin.isSome then [ConvConstr.ctrlLB] else [])
  ++ [ConvConstr.initState]

/-- The cvxpy constraint list of `microcoupling_solve` (`src/optimizer/
mpc_solver.py` lines 88–123): identical shape to `conventional_solve`
over horizon `N_mic`, except that the collision pairs come from the
truncated inner range (`sepPairsCpl`); the coupling term only adds cost,
never constraints. -/
def microcouplingConstraints (B : PyMat) (N_mic adim : Nat)
    (umax umin : Option ℚ) (xmin xmax : Option (List ℚ)) (coll_d : Option ℚ) :
    List ConvConstr :=
  let nx := B.rows
  ((List.range N_mic).flatMap fun t =>
    [ConvConstr.dyn t]
    ++ (if xmin.isSome then [ConvConstr.stateLB t] else [])
    ++ (if xmax.isSome then [ConvConstr.stateUB t] else [])
    ++ (if coll_d.isSome then
          (sepPairsCpl (nx / adim)).map fun p => ConvConstr.sep t p.1 p.2
        else []))
  ++ (if xmin.isSome then [ConvConstr.termLB] else [])
  ++ (if xmax.isSome then [ConvConstr.termUB] else [])
  ++ (if umax.isSome then [ConvConstr.ctrlUB] else [])
  ++ (if umin.isSome then [ConvConstr.ctrlLB] else [])
  ++ [ConvConstr.initState]

/-- One constraint of the two-scale problem (`mesocoupling_solve`):
meso-scale constraints mirror the single-scale ones; micro-scale
constraints carry the `mic` prefix. -/
inductive MesoConstr where
  | mesDyn (t : Nat)
  | mesStateLB (t : Nat)
  | mesStateUB (t : Nat)
  | mesTermLB
  | mesTermUB
  | mesCtrlUB
  | mesCtrlLB
  | mesInit
  | micDyn (t : Nat)
  | micStateLB (t : Nat)
  | micStateUB (t : Nat)
  | micSep (t idx jdx : Nat)
  | micCtrlUB
  | micCtrlLB
  | micInit
  deriving DecidableEq

/-- Whether a two-scale constraint belongs to the micro scale. -/
def MesoConstr.isMicro : MesoConstr → Bool
  | .micDyn _ | .micStateLB _ | .micStateUB _ | .micSep _ _ _
  | .micCtrlUB | .micCtrlLB | .micInit => true
  | _ => false

/-- The cvxpy objective of `mesocoupling_solve` (`src/optimizer/
mpc_solver.py` lines 161–198): the meso stage costs and meso terminal
cost always; the micro stage costs (coupling weight `L` for the state,
`R_mic` for the control) only inside `if L is not None`. -/
def mesocouplingCost (N_mes N_mic : Nat) (Q R_mes R_mic P : PyMat)
    (L : Option PyMat) (L_lambda : ℚ) (x_star_in : Option (List ℚ))
    (x_mes u_mes x_mic u_mic : Nat → List ℚ) : ℚ :=
  (List.range N_mes).foldl
    (fun costlist t =>
      let costlist :=
        match x_star_in with
        | some x_star => costlist + 1/2 * quadForm Q (vsub (x_mes t) x_star)
        | none => costlist + 1/2 * quadForm Q (x_mes t)
      costlist + 1/2 * quadForm R_mes (u_mes t))
    0
  + 1/2 * quadForm P (x_mes N_mes)
  + (match L with
     | some Lm =>
        (List.range N_mic).foldl
          (fun costlist t =>
            costlist + 1/2 * L_lambda * quadForm Lm (x_mic t)
              + 1/2 * quadForm R_mic (u_mic t))
          0
     | none => 0)

/-- The cvxpy constraint list of `mesocoupling_solve` (`src/optimizer/
mpc_solver.py` lines 162–218) in source order: the meso-scale block
always; the whole micro-scale block (dynamics, bounds, collision pairs,
control bounds, initial state) only inside `if L is not None`.
`nx_mic = B_mic.shape[0]`. -/
def mesocouplingConstraints (B_mic : PyMat) (N_mes N_mic adim : Nat)
    (L : Option PyMat)
    (umax_mes umin_mes umax_mic umin_mic : Option ℚ)
    (xmin_mes xmax_mes xmin_mic xmax_mic : Option (List ℚ))
    (coll_d : Option ℚ) : List MesoConstr :=
  let nx_mic := B_mic.rows
  ((List.range N_mes).flatMap fun t =>
    [MesoConstr.mesDyn t]
    ++ (if xmin_mes.isSome then [MesoConstr.mesStateLB t] else [])
    ++ (if xmax_mes.isSome then [MesoConstr.mesStateUB t] else []))
  ++ (if xmin_mes.isSome then [MesoConstr.mesTermLB] else [])
  ++ (if xmax_mes.isSome then [MesoConstr.mesTermUB] else [])
  ++ (if umax_mes.isSome then [MesoConstr.mesCtrlUB] else [])
  ++ (if umin_mes.isSome then [MesoConstr.mesCtrlLB] else [])
  ++ [MesoConstr.mesInit]
  ++ (match L with
      | some _ =>
        ((List.range N_mic).flatMap fun t =>
          [MesoConstr.micDyn t]
          ++ (if xmin_mic.isSome then [MesoConstr.micStateLB t] else [])
          ++ (if xmax_mic.isSome then [MesoConstr.micStateUB t] else [])
          ++ (if coll_d.isSome then
                (sepPairsCpl (nx_mic / adim)).map fun p => MesoConstr.micSep t p.1 p.2
              else []))
        ++ (if umax_mic.isSome then [MesoConstr.micCtrlUB] else [])
        ++ (if umin_mic.isSome then [MesoConstr.micCtrlLB] else [])
        ++ [MesoConstr.micInit]
      | none => [])

/-! ## Helper lemmas -/

lemma foldl_add_add (g h : Nat → ℚ) : ∀ (N : Nat) (c : ℚ),
    (List.range N).foldl (fun acc t => acc + g t + h t) c
      = c + ∑ t ∈ Finset.range N, (g t + h t) := by
  intro N
  induction N with
  | zero => simp
  | succ N ih =>
      intro c
      rw [List.range_succ, List.foldl_append, ih, Finset.sum_range_succ]
      simp [List.foldl]
      ring

lemma mem_ite_list {α : Type} (p : Prop) [Decidable p] (a : α) (l : List α) :
    (a ∈ if p then l else []) ↔ p ∧ a ∈ l := by
  split <;> simp_all

lemma mem_sepPairsConv (K i j : Nat) : (i, j) ∈ sepPairsConv K ↔ i < j ∧ j < K := by
  simp only [sepPairsConv, List.mem_flatMap, List.mem_map, List.mem_range, List.mem_range',
    Prod.mk.injEq]
  constructor
  · rintro ⟨idx, hidx, jdx, ⟨c, hc, rfl⟩, rfl, rfl⟩
    omega
  · rintro ⟨hij, hjK⟩
    exact ⟨i, by omega, j, ⟨j - (i + 1), by omega⟩, rfl, rfl⟩

lemma mem_sepPairsCpl (K i j : Nat) : (i, j) ∈ sepPairsCpl K ↔ i < j ∧ j + 1 < K := by
  simp only [sepPairsCpl, List.mem_flatMap, List.mem_map, List.mem_range, List.mem_range',
    Prod.mk.injEq]
  constructor
  · rintro ⟨idx, hidx, jdx, ⟨c, hc, rfl⟩, rfl, rfl⟩
    omega
  · rintro ⟨hij, hjK⟩
    exact ⟨i, by omega, j, ⟨j - (i + 1), by omega⟩, rfl, rfl⟩

/-! ## Claim theorems: the MPC solver -/

/-- C3.  In `conventional_solve`, for every horizon `N` and supplied
reference `x_star`, the accumulated objective is exactly the sum over
`t < N` of the stage costs `½ (x[t] − x*)ᵀ Q (x[t] − x*) + ½ u[t]ᵀ R u[t]`
plus the terminal cost `½ x[N]ᵀ P x[N]` on the RAW terminal state: the
`x*` substitution applies to the stage cost only, never to the terminal
term. -/
theorem conventional_cost_reference_stage_only (N : Nat) (Q R P : PyMat)
    (x_star : List ℚ) (x u : Nat → List ℚ) :
    conventionalCost N Q R P (some x_star) x u
      = (∑ t ∈ Finset.range N,
          (1/2 * quadForm Q (vsub (x t) x_star) + 1/2 * quadForm R (u t)))
        + 1/2 * quadForm P (x N) := by
  unfold conventionalCost
  rw [foldl_add_add (fun t => 1/2 * quadForm Q (vsub (x t) x_star))
    (fun t => 1/2 * quadForm R (u t))]
  ring

/-- C4.  In `mesocoupling_solve` with no coupling weight (`L = None`):
every constraint in the constructed problem is a meso-scale constraint
(no micro dynamics, bounds, separation or initial-state constraint
appears), the objective does not depend on the micro-scale trajectory at
all, and the single returned scalar cost is exactly the meso cost — the
single-scale objective of the meso component.  Hence the micro-scale
variables are absent from objective and constraints and their returned
values carry no solved content. -/
theorem mesocoupling_no_coupling_meso_only (N_mes N_mic adim : Nat)
    (Q R_mes R_mic P B_mic : PyMat) (L_lambda : ℚ) (x_star_in : Option (List ℚ))
    (umax_mes umin_mes umax_mic umin_mic : Option ℚ)
    (xmin_mes xmax_mes xmin_mic xmax_mic : Option (List ℚ)) (coll_d : Option ℚ)
    (x_mes u_mes x_mic u_mic x_mic' u_mic' : Nat → List ℚ) :
    (∀ c ∈ mesocouplingConstraints B_mic N_mes N_mic adim none
        umax_mes umin_mes umax_mic umin_mic
        xmin_mes xmax_mes xmin_mic xmax_mic coll_d, c.isMicro = false)
    ∧ mesocouplingCost N_mes N_mic Q R_mes R_mic P none L_lambda x_star_in
        x_mes u_mes x_mic u_mic
      = mesocouplingCost N_mes N_mic Q R_mes R_mic P none L_lambda x_star_in
          x_mes u_mes x_mic' u_mic'
    ∧ mesocouplingCost N_mes N_mic Q R_mes R_mic P none L_lambda x_star_in
        x_mes u_mes x_mic u_mic
      = conventionalCost N_mes Q R_mes P x_star_in x_mes u_mes := by
  refine ⟨?_, rfl, ?_⟩
  · intro c hc
    cases c <;> first
      | rfl
      | (exfalso
         simp [mesocouplingConstraints, mem_ite_list] at hc)
  · simp [mesocouplingCost, conventionalCost]

/-- C10.  With a collision distance supplied, `conventional_solve` adds a
separation constraint for every stage `t < N` and every pair
`idx < jdx < nx/adim` of agent blocks, whereas `microcoupling_solve` and
`mesocoupling_solve` run the inner loop only until `nx/adim − 1`, so
their separation pairs satisfy `jdx + 1 < nx/adim` and no pair involving
the last agent block (index `nx/adim − 1`) is ever generated there. -/
theorem collision_pair_last_block_dropped (B B_mic : PyMat) (N N_mes N_mic adim : Nat)
    (Lm : PyMat) (d : ℚ) (umax umin umax_mes umin_mes umax_mic umin_mic : Option ℚ)
    (xmin xmax xmin_mes xmax_mes xmin_mic xmax_mic : Option (List ℚ)) :
    (∀ t i j, ConvConstr.sep t i j ∈
        conventionalConstraints B N adim umax umin xmin xmax (some d)
      ↔ t < N ∧ i < j ∧ j < B.rows / adim)
    ∧ (∀ t i j, ConvConstr.sep t i j ∈
        microcouplingConstraints B N adim umax umin xmin xmax (some d)
      ↔ t < N ∧ i < j ∧ j + 1 < B.rows / adim)
    ∧ (∀ t i j, MesoConstr.micSep t i j ∈
        mesocouplingConstraints B_mic N_mes N_mic adim (some Lm)
          umax_mes umin_mes umax_mic umin_mic
          xmin_mes xmax_mes xmin_mic xmax_mic (some d)
      ↔ t < N_mic ∧ i < j ∧ j + 1 < B_mic.rows / adim)
    ∧ (∀ t i j, i = B.rows / adim - 1 ∨ j = B.rows / adim - 1 →
        ConvConstr.sep t i j ∉
          microcouplingConstraints B N adim umax umin xmin xmax (some d))
    ∧ (∀ t i j, i = B_mic.rows / adim - 1 ∨ j = B_mic.rows / adim - 1 →
        MesoConstr.micSep t i j ∉
          mesocouplingConstraints B_mic N_mes N_mic adim (some Lm)
            umax_mes umin_mes umax_mic umin_mic
            xmin_mes xmax_mes xmin_mic xmax_mic (some d)) := by
  have hconv : ∀ t i j, ConvConstr.sep t i j ∈
      conventionalConstraints B N adim umax umin xmin xmax (some d)
      ↔ t < N ∧ i < j ∧ j < B.rows / adim := by
    intro t i j
    simp [conventionalConstraints, mem_ite_list, mem_sepPairsConv, Prod.exists]
    aesop
  have hmic : ∀ t i j, ConvConstr.sep t i j ∈
      microcouplingConstraints B N adim umax umin xmin xmax (some d)
      ↔ t < N ∧ i < j ∧ j + 1 < B.rows / adim := by
    intro t i j
    simp [microcouplingConstraints, mem_ite_list, mem_sepPairsCpl, Prod.exists]
    aesop
  have hmes : ∀ t i j, MesoConstr.micSep t i j ∈
      mesocouplingConstraints B_mic N_mes N_mic adim (some Lm)
        umax_mes umin_mes umax_mic umin_mic
        xmin_mes xmax_mes xmin_mic xmax_mic (some d)
      ↔ t < N_mic ∧ i < j ∧ j + 1 < B_mic.rows / adim := by
    intro t i j
    simp [mesocouplingConstraints, mem_ite_list, mem_sepPairsCpl, Prod.exists]
    aesop
  refine ⟨hconv, hmic, hmes, ?_, ?_⟩
  · intro t i j hlast hmem
    have := (hmic t i j).1 hmem
    omega
  · intro t i j hlast hmem
    have := (hmes t i j).1 hmem
    omega

/-! ## Claim theorems: agents -/

lemma matVec_length (M : PyMat) (v : List ℚ) : (matVec M v).length = M.rows := by
  simp [matVec]

lemma matVec_getD (M : PyMat) (v : List ℚ) (i : Nat) (hi : i < M.rows) :
    (matVec M v).getD i 0 = ∑ j ∈ Finset.range M.cols, M.entry i j * v.getD j 0 := by
  rw [List.getD_eq_getElem]
  · simp [matVec]
  · simpa [matVec] using hi

lemma vadd_length (v w : List ℚ) : (vadd v w).length = min v.length w.length := by
  simp [vadd]

lemma vadd_getD (v w : List ℚ) (i : Nat) (hv : i < v.length) (hw : i < w.length) :
    (vadd v w).getD i 0 = v.getD i 0 + w.getD i 0 := by
  rw [List.getD_eq_getElem, List.getD_eq_getElem v, List.getD_eq_getElem w]
  · simp [vadd]
  · exact hw
  · exact hv
  · simp [vadd]; omega

/-- C6.  For an agent with `A : D × D`, `B : D × C`, a state of length `D`
and a control of length `C`, `propagate_input` replaces the state by
exactly `A · state_prev + B · u` (entrywise, with the previous state on
the right-hand side), keeps the state length at `D`, and changes nothing
else: `A`, `B` and the agent dimension are untouched, and no error path
exists. -/
theorem propagate_input_linear_dynamics (ag : LinearAgentNd) (u : List ℚ) (D C : Nat)
    (hAr : ag.A.rows = D) (hAc : ag.A.cols = D) (hBr : ag.B.rows = D) (hBc : ag.B.cols = C)
    (hx : ag.state.length = D) (hu : u.length = C) :
    (ag.propagate_input u).state.length = D
    ∧ (∀ i, i < D →
        (ag.propagate_input u).state.getD i 0
          = (∑ j ∈ Finset.range D, ag.A.entry i j * ag.state.getD j 0)
            + ∑ k ∈ Finset.range C, ag.B.entry i k * u.getD k 0)
    ∧ (ag.propagate_input u).A = ag.A
    ∧ (ag.propagate_input u).B = ag.B
    ∧ (ag.propagate_input u).agent_dim = ag.agent_dim := by
  refine ⟨?_, ?_, rfl, rfl, rfl⟩
  · simp [LinearAgentNd.propagate_input, vadd_length, matVec_length, hAr, hBr]
  · intro i hi
    have h1 : i < (matVec ag.A ag.state).length := by rw [matVec_length, hAr]; exact hi
    have h2 : i < (matVec ag.B u).length := by rw [matVec_length, hBr]; exact hi
    show (vadd (matVec ag.A ag.state) (matVec ag.B u)).getD i 0 = _
    rw [vadd_getD _ _ _ h1 h2, matVec_getD _ _ _ (by rw [hAr]; exact hi),
      matVec_getD _ _ _ (by rw [hBr]; exact hi), hAc, hBc]

/-- Witness for C6 at a concrete 2-dimensional agent with a
1-dimensional control. -/
theorem propagate_input_linear_dynamics_witness :
    (LinearAgentNd.propagate_input ⟨⟨2, 2, fun _ _ => 1⟩, ⟨2, 1, fun _ _ => 1⟩, [3, 4], 2⟩
      [5]).state.length = 2 := by
  exact (propagate_input_linear_dynamics
    ⟨⟨2, 2, fun _ _ => 1⟩, ⟨2, 1, fun _ _ => 1⟩, [3, 4], 2⟩ [5] 2 1
    rfl rfl rfl rfl rfl rfl).1

/-- C8.  The claim says an agent is constructible with `A : D × D` and
`B : D × C` for `C ≠ D`.  The constructor instead asserts
`B.shape[1] == agent_dim`, i.e. that `B` has `D` COLUMNS: the genuine
`D × C` input matrix (here `2 × 1`) is rejected, while a nonsensical
`5 × 2` matrix (wrong row count, matching column count) is accepted.
The column-count assertion contradicts the code's own use of `B` as the
`agent_dim × control_dim` block of the joint input matrix in
`update_system_mpc`. -/
theorem agent_constructor_checks_B_columns :
    LinearAgentNd.make ⟨2, 2, fun _ _ => 1⟩ ⟨2, 1, fun _ _ => 1⟩ 2 [0, 0]
        = .error "AssertionError"
    ∧ ∃ ag, LinearAgentNd.make ⟨2, 2, fun _ _ => 1⟩ ⟨5, 2, fun _ _ => 1⟩ 2 [0, 0]
        = .ok ag :=
  ⟨rfl, ⟨_, rfl⟩⟩

/-! ## Claim theorems: clustering dispatch (C7) -/

/-- C7.  For any configured algorithm selector other than `hierarchy`
and `hdbscan`, `_re_eval_clusters` raises
`ValueError("Cluster identification algorithm not implemented")` before
touching any field (so the cluster assignment is unchanged — in this
embedding an error returns no updated state at all), the error
propagates unchanged through `_re_eval_system`, and construction of a
`MultiAgentSystem` with such a selector fails the same way. -/
theorem unsupported_clustering_algorithm_raises (libs : ExternalLibs)
    (s : MultiAgentSystem) (h1 : s.clust_algo ≠ "hierarchy") (h2 : s.clust_algo ≠ "hdbscan") :
    s.re_eval_clusters libs = .error "Cluster identification algorithm not implemented"
    ∧ s.re_eval_system libs = .error "Cluster identification algorithm not implemented"
    ∧ (∀ (n D C : Nat) (goal : List ℚ) (agents : List LinearAgentNd) (params : List ℚ),
        MultiAgentSystem.make libs n D C goal agents s.clust_algo params
          = .error "Cluster identification algorithm not implemented") := by
  refine ⟨?_, ?_, ?_⟩
  · simp [MultiAgentSystem.re_eval_clusters, h1, h2]
  · simp [MultiAgentSystem.re_eval_system, MultiAgentSystem.re_eval_clusters, h1, h2]
  · intro n D C goal agents params
    simp [MultiAgentSystem.make, MultiAgentSystem.re_eval_system,
      MultiAgentSystem.re_eval_clusters, h1, h2]

/-- A concrete instantiation of the external clustering/norm libraries,
used by the concrete witnesses below: one cluster containing everything,
and the zero norm. -/
def libs0 : ExternalLibs :=
  ⟨fun st _ => st.map fun _ => 1, fun _ _ _ st => st.map fun _ => 0, fun _ => 0⟩

/-- Witness for C7: a system configured with the (unimplemented)
`epsdel` selector. -/
theorem unsupported_clustering_algorithm_raises_witness :
    MultiAgentSystem.re_eval_clusters libs0
        ⟨1, 1, 1, [[0]], [0], [], "epsdel", [], 0, 0, [], 0, [], []⟩
      = .error "Cluster identification algorithm not implemented" := by
  exact (unsupported_clustering_algorithm_raises libs0
    ⟨1, 1, 1, [[0]], [0], [], "epsdel", [], 0, 0, [], 0, [], []⟩
    (by decide) (by decide)).1

/-! ## Claim theorems: the simplified update (C5) -/

/-- A one-agent, one-dimensional agent used by the concrete system
witnesses: `A = B = (1)`, state `(0)`. -/
def agent0 : LinearAgentNd := ⟨⟨1, 1, fun _ _ => 1⟩, ⟨1, 1, fun _ _ => 1⟩, [0], 1⟩

/-- C5.  The claim says `update_system_simplified` applies the
proportional meso control `step_size · (goal − centroid)` per cluster.
The code instead crashes on any system with at least one cluster: the
loop `for cluster in self.clusters:` iterates the clusters dictionary's
integer keys, and `cluster.centroid` on an integer raises
`AttributeError`.  Concretely: a freshly constructed one-agent system
has exactly one cluster, and its first simplified update fails. -/
theorem update_simplified_attribute_error :
    (MultiAgentSystem.make libs0 1 1 1 [1] [agent0] "hierarchy" [2]).map
        (fun s => s.n_clusters) = .ok 1
    ∧ (MultiAgentSystem.make libs0 1 1 1 [1] [agent0] "hierarchy" [2]).bind
        (fun s => s.update_system_simplified libs0 (1/100))
      = .error "AttributeError: int object has no attribute centroid" :=
  ⟨rfl, rfl⟩

/-! ## Infrastructure for the orchestration theorems (C1, C2, C9) -/

/-- The value `_re_eval_system` produces in the supported `hierarchy`
configuration, as a total function. -/
def reEvalH (libs : ExternalLibs) (s : MultiAgentSystem) : MultiAgentSystem :=
  let fs := s.agents.map (·.state)
  let d := ((fs.map fun row => libs.norm2 (vsub row s.system_goal)).sum) / (fs.length : ℚ)
  rebuildClusters { s with full_system_state := fs, avg_goal_dist := d }
    ((libs.fclusterdata fs (s.clust_algo_params.getD 0 0)).map (· - 1))

lemma re_eval_system_hierarchy (libs : ExternalLibs) (s : MultiAgentSystem)
    (h : s.clust_algo = "hierarchy") :
    s.re_eval_system libs = .ok (reEvalH libs s) := by
  simp [MultiAgentSystem.re_eval_system, MultiAgentSystem.re_eval_clusters, h, reEvalH]

@[simp] lemma reEvalH_agents (libs : ExternalLibs) (s : MultiAgentSystem) :
    (reEvalH libs s).agents = s.agents := by
  simp [reEvalH, rebuildClusters]

@[simp] lemma reEvalH_system_goal (libs : ExternalLibs) (s : MultiAgentSystem) :
    (reEvalH libs s).system_goal = s.system_goal := by
  simp [reEvalH, rebuildClusters]

@[simp] lemma reEvalH_clust_algo (libs : ExternalLibs) (s : MultiAgentSystem) :
    (reEvalH libs s).clust_algo = s.clust_algo := by
  simp [reEvalH, rebuildClusters]

@[simp] lemma reEvalH_clust_algo_params (libs : ExternalLibs) (s : MultiAgentSystem) :
    (reEvalH libs s).clust_algo_params = s.clust_algo_params := by
  simp [reEvalH, rebuildClusters]

@[simp] lemma reEvalH_agent_dim (libs : ExternalLibs) (s : MultiAgentSystem) :
    (reEvalH libs s).agent_dim = s.agent_dim := by
  simp [reEvalH, rebuildClusters]

@[simp] lemma reEvalH_control_dim (libs : ExternalLibs) (s : MultiAgentSystem) :
    (reEvalH libs s).control_dim = s.control_dim := by
  simp [reEvalH, rebuildClusters]

@[simp] lemma reEvalH_n_agents (libs : ExternalLibs) (s : MultiAgentSystem) :
    (reEvalH libs s).n_agents = s.n_agents := by
  simp [reEvalH, rebuildClusters]

@[simp] lemma reEvalH_time (libs : ExternalLibs) (s : MultiAgentSystem) :
    (reEvalH libs s).control_solution_time = s.control_solution_time := by
  simp [reEvalH, rebuildClusters]

lemma reEvalH_full_system_state (libs : ExternalLibs) (s : MultiAgentSystem) :
    (reEvalH libs s).full_system_state = s.agents.map (·.state) := by
  simp [reEvalH, rebuildClusters]

lemma reEvalH_avg_goal_dist (libs : ExternalLibs) (s : MultiAgentSystem) :
    (reEvalH libs s).avg_goal_dist
      = ((s.agents.map (·.state)).map fun row => libs.norm2 (vsub row s.system_goal)).sum
          / ((s.agents.map (·.state)).length : ℚ) := by
  simp [reEvalH, rebuildClusters]

@[simp] lemma withAgents_agents (s : MultiAgentSystem) (X : List LinearAgentNd) :
    (withAgents s X).agents = X := rfl

@[simp] lemma withAgents_system_goal (s : MultiAgentSystem) (X : List LinearAgentNd) :
    (withAgents s X).system_goal = s.system_goal := rfl

@[simp] lemma withAgents_clust_algo (s : MultiAgentSystem) (X : List LinearAgentNd) :
    (withAgents s X).clust_algo = s.clust_algo := rfl

@[simp] lemma withAgents_agent_dim (s : MultiAgentSystem) (X : List LinearAgentNd) :
    (withAgents s X).agent_dim = s.agent_dim := rfl

/-- Re-evaluation only looks at the agents and the static configuration:
overwriting the derived fields and the agents of an already re-evaluated
state gives the same re-evaluation as overwriting the agents of the
base state. -/
lemma reEvalH_update_agents (libs : ExternalLibs) (s : MultiAgentSystem)
    (X Y : List LinearAgentNd) :
    reEvalH libs (withAgents (reEvalH libs (withAgents s X)) Y)
      = reEvalH libs (withAgents s Y) := by
  simp [reEvalH, rebuildClusters, withAgents]

/-- Spec-side helper: the first `m` agents transformed by `f` (which may
depend on the agent's position), the rest kept. -/
def commitUpTo (f : Nat → LinearAgentNd → LinearAgentNd) (m : Nat)
    (l : List LinearAgentNd) : List LinearAgentNd :=
  l.mapIdx fun i a => if i < m then f i a else a

@[simp] lemma commitUpTo_length (f : Nat → LinearAgentNd → LinearAgentNd) (m : Nat)
    (l : List LinearAgentNd) : (commitUpTo f m l).length = l.length := by
  simp [commitUpTo]

lemma commitUpTo_zero (f : Nat → LinearAgentNd → LinearAgentNd) (l : List LinearAgentNd) :
    commitUpTo f 0 l = l := by
  apply List.ext_getElem
  · simp
  · intro i h1 h2
    simp [commitUpTo]

lemma commitUpTo_getD_ge (f : Nat → LinearAgentNd → LinearAgentNd) (m k : Nat)
    (l : List LinearAgentNd) (hk : m ≤ k) :
    (commitUpTo f m l).getD k dummyAgent = l.getD k dummyAgent := by
  rcases Nat.lt_or_ge k l.length with h | h
  · rw [List.getD_eq_getElem _ _ (by simpa using h), List.getD_eq_getElem _ _ h]
    simp [commitUpTo, List.getElem_mapIdx]
    omega
  · rw [List.getD_eq_default _ _ (by simpa using h), List.getD_eq_default _ _ h]

lemma commitUpTo_getD_lt (f : Nat → LinearAgentNd → LinearAgentNd) (m k : Nat)
    (l : List LinearAgentNd) (hk : k < m) (hl : k < l.length) :
    (commitUpTo f m l).getD k dummyAgent = f k (l.getD k dummyAgent) := by
  rw [List.getD_eq_getElem _ _ (by simpa using hl), List.getD_eq_getElem _ _ hl]
  simp [commitUpTo, List.getElem_mapIdx, hk]

lemma commitUpTo_set_succ (f : Nat → LinearAgentNd → LinearAgentNd) (m : Nat)
    (l : List LinearAgentNd) (hm : m < l.length) :
    (commitUpTo f m l).set m (f m (l.getD m dummyAgent)) = commitUpTo f (m + 1) l := by
  apply List.ext_getElem
  · simp
  · intro i h1 h2
    rcases eq_or_ne i m with rfl | hne
    · rw [List.getElem_set_self]
      · rw [List.getD_eq_getElem _ _ hm]
        simp [commitUpTo, List.getElem_mapIdx]
    · rw [List.getElem_set_ne (by omega)]
      simp only [commitUpTo, List.getElem_mapIdx]
      rcases Nat.lt_or_ge i m with h | h
      · rw [if_pos h, if_pos (by omega)]
      · rw [if_neg (by omega), if_neg (by omega)]

/-- The fixed arguments of one family of single-scale solves: the
solver, the cost weights `Q`, `R`, `P`, the horizon and the control
bounds. -/
structure SolveCfg where
  tool : MpcTool
  Q : PyMat
  R : PyMat
  P : PyMat
  n_t : Nat
  umax : Option ℚ
  umin : Option ℚ

/-- Spec-side: one single-scale solve for one agent, using that agent's
own dynamics and current state, with `goal` as the reference. -/
def SolveCfg.solve (cfg : SolveCfg) (goal : List ℚ) (ag : LinearAgentNd) :
    List (List ℚ) × List (List ℚ) × ℚ :=
  cfg.tool.use_modeling_tool ag.A ag.B cfg.n_t cfg.Q cfg.R cfg.P ag.state goal
    cfg.umax cfg.umin

/-- Spec-side: committing to the agent the terminal column of the state
trajectory returned by its own solve. -/
def SolveCfg.commit (cfg : SolveCfg) (goal : List ℚ) (ag : LinearAgentNd) :
    LinearAgentNd :=
  { ag with state := lastCol (cfg.solve goal ag).1 }

/-- Spec-side (C2): the agent list after the first `m` per-agent
updates, each agent replaced by the terminal state of its own solve at
its original state. -/
def distAgents (cfg : SolveCfg) (s : MultiAgentSystem) (m : Nat) : List LinearAgentNd :=
  commitUpTo (fun _ a => cfg.commit s.system_goal a) m s.agents

/-- Spec-side (C2): the system after `m` per-agent updates, with the
system re-evaluated after each individual agent's update (hence, for
`m ≥ 1`, re-evaluated after the `m`-th). -/
def distState (libs : ExternalLibs) (cfg : SolveCfg) (s : MultiAgentSystem) :
    Nat → MultiAgentSystem
  | 0 => s
  | m + 1 => reEvalH libs (withAgents s (distAgents cfg s (m + 1)))

/-- Spec-side (C2): the summed optimal costs of the first `m` per-agent
solves, each taken at the agent's original state. -/
def distCost (cfg : SolveCfg) (s : MultiAgentSystem) (m : Nat) : ℚ :=
  ∑ adx ∈ Finset.range m, (cfg.solve s.system_goal (s.agents.getD adx dummyAgent)).2.2

lemma distState_agents (libs : ExternalLibs) (cfg : SolveCfg) (s : MultiAgentSystem)
    (m : Nat) : (distState libs cfg s m).agents = distAgents cfg s m := by
  cases m with
  | zero => simp [distState, distAgents, commitUpTo_zero]
  | succ m => simp [distState]

lemma distState_system_goal (libs : ExternalLibs) (cfg : SolveCfg) (s : MultiAgentSystem)
    (m : Nat) : (distState libs cfg s m).system_goal = s.system_goal := by
  cases m with
  | zero => rfl
  | succ m => simp [distState]

lemma distState_clust_algo (libs : ExternalLibs) (cfg : SolveCfg) (s : MultiAgentSystem)
    (m : Nat) : (distState libs cfg s m).clust_algo = s.clust_algo := by
  cases m with
  | zero => rfl
  | succ m => simp [distState]

lemma lastCol_length (M : List (List ℚ)) : (lastCol M).length = M.length := by
  simp [lastCol]

@[simp] lemma exceptOk_bind {α β : Type} (a : α) (f : α → Except String β) :
    (Except.ok a : Except String α) >>= f = f a := rfl

@[simp] lemma exceptError_bind {α β : Type} (e : String) (f : α → Except String β) :
    (Except.error e : Except String α) >>= f = .error e := rfl

/-- The per-agent loop of `update_system_mpc_distributed` reaches, after
`m` of the agents, exactly the spec-side state and accumulated cost. -/
lemma distributed_fold (libs : ExternalLibs) (cfg : SolveCfg) (s : MultiAgentSystem)
    (halgo : s.clust_algo = "hierarchy")
    (hlen : ∀ adx, adx < s.agents.length →
      ((cfg.solve s.system_goal (s.agents.getD adx dummyAgent)).1).length
        = (s.agents.getD adx dummyAgent).state.length) :
    ∀ m, m ≤ s.agents.length →
      (List.range m).foldlM
          (distLoopBody libs cfg.tool cfg.Q cfg.R cfg.P cfg.n_t cfg.umax cfg.umin)
          (s, (0 : ℚ))
        = .ok (distState libs cfg s m, distCost cfg s m) := by
  intro m
  induction m with
  | zero =>
      intro _
      show pure (s, 0) = Except.ok (distState libs cfg s 0, distCost cfg s 0)
      rw [distCost, Finset.sum_range_zero]
      rfl
  | succ m ih =>
      intro hm
      rw [List.range_succ, List.foldlM_append, ih (by omega)]
      have hag : (distState libs cfg s m).agents.getD m dummyAgent
          = s.agents.getD m dummyAgent := by
        rw [distState_agents]
        exact commitUpTo_getD_ge _ m m _ le_rfl
      have hgoal := distState_system_goal libs cfg s m
      have hsolve : cfg.tool.use_modeling_tool (s.agents.getD m dummyAgent).A
          (s.agents.getD m dummyAgent).B cfg.n_t cfg.Q cfg.R cfg.P
          (s.agents.getD m dummyAgent).state s.system_goal cfg.umax cfg.umin
          = cfg.solve s.system_goal (s.agents.getD m dummyAgent) := rfl
      have hsetOk : (s.agents.getD m dummyAgent).set_state
          (lastCol (cfg.solve s.system_goal (s.agents.getD m dummyAgent)).1)
          = .ok (cfg.commit s.system_goal (s.agents.getD m dummyAgent)) := by
        rw [LinearAgentNd.set_state, if_pos]
        · rfl
        · rw [lastCol_length, hlen m (by omega)]
      have hset : (distState libs cfg s m).agents.set m
          (cfg.commit s.system_goal (s.agents.getD m dummyAgent))
          = distAgents cfg s (m + 1) := by
        rw [distState_agents]
        exact commitUpTo_set_succ _ m _ (by omega)
      have hre : MultiAgentSystem.re_eval_system libs
          (withAgents (distState libs cfg s m) (distAgents cfg s (m + 1)))
          = .ok (reEvalH libs
            (withAgents (distState libs cfg s m) (distAgents cfg s (m + 1)))) := by
        apply re_eval_system_hierarchy
        show (distState libs cfg s m).clust_algo = "hierarchy"
        rw [distState_clust_algo, halgo]
      have hfin : reEvalH libs
          (withAgents (distState libs cfg s m) (distAgents cfg s (m + 1)))
          = distState libs cfg s (m + 1) := by
        cases m with
        | zero => rfl
        | succ m' =>
            show reEvalH libs
              (withAgents (reEvalH libs (withAgents s (distAgents cfg s (m' + 1))))
                (distAgents cfg s (m' + 2))) = _
            rw [reEvalH_update_agents]
            rfl
      have hcost : distCost cfg s m
            + (cfg.solve s.system_goal (s.agents.getD m dummyAgent)).2.2
          = distCost cfg s (m + 1) := by
        rw [distCost, distCost, Finset.sum_range_succ]
      simp only [List.foldlM_cons, List.foldlM_nil, exceptOk_bind]
      dsimp only [distLoopBody]
      rw [hag, hgoal, hsolve, hsetOk]
      simp only [exceptOk_bind]
      rw [hset, hre]
      simp only [exceptOk_bind]
      rw [hfin, hcost]
      rfl

/-- C2.  `update_system_mpc_distributed` processes every agent
independently: agent `adx`'s solve uses its own `A`, `B` and its own
(original) current state with the system goal as reference; the terminal
column of its trajectory is committed to it; the system is re-evaluated
after EACH individual agent's update (the loop prefix of length `m`
already ends in a re-evaluated state, for every `m ≥ 1` — not only after
the whole batch); and the method returns the final average goal distance
together with the sum of the per-agent optimal costs divided by
`n_agents`. -/
theorem distributed_mpc_update (libs : ExternalLibs) (cfg : SolveCfg)
    (s : MultiAgentSystem) (halgo : s.clust_algo = "hierarchy")
    (hlen : ∀ adx, adx < s.agents.length →
      ((cfg.solve s.system_goal (s.agents.getD adx dummyAgent)).1).length
        = (s.agents.getD adx dummyAgent).state.length) :
    MultiAgentSystem.update_system_mpc_distributed libs cfg.tool s cfg.Q cfg.R cfg.P
        cfg.n_t cfg.umax cfg.umin
      = .ok (distState libs cfg s s.agents.length,
          (distState libs cfg s s.agents.length).avg_goal_dist,
          distCost cfg s s.agents.length / (s.n_agents : ℚ))
    ∧ (∀ m, m ≤ s.agents.length →
        (List.range m).foldlM
          (distLoopBody libs cfg.tool cfg.Q cfg.R cfg.P cfg.n_t cfg.umax cfg.umin)
          (s, (0 : ℚ))
          = .ok (distState libs cfg s m, distCost cfg s m))
    ∧ (∀ adx, adx < s.agents.length →
        (distState libs cfg s s.agents.length).agents.getD adx dummyAgent
          = cfg.commit s.system_goal (s.agents.getD adx dummyAgent))
    ∧ (0 < s.agents.length →
        (distState libs cfg s s.agents.length).full_system_state
          = (distAgents cfg s s.agents.length).map (·.state)) := by
  have hfold := distributed_fold libs cfg s halgo hlen
  refine ⟨?_, fun m hm => hfold m hm, ?_, ?_⟩
  · show ((List.range s.agents.length).foldlM
        (distLoopBody libs cfg.tool cfg.Q cfg.R cfg.P cfg.n_t cfg.umax cfg.umin)
        (s, (0 : ℚ))) >>= _ = _
    rw [hfold s.agents.length le_rfl]
    rfl
  · intro adx hadx
    rw [distState_agents, distAgents, commitUpTo_getD_lt _ _ _ _ hadx hadx]
  · intro hpos
    rcases hn : s.agents.length with _ | m
    · omega
    · show (distState libs cfg s (m + 1)).full_system_state = _
      rw [show distState libs cfg s (m + 1)
            = reEvalH libs (withAgents s (distAgents cfg s (m + 1))) from rfl,
        reEvalH_full_system_state]
      rfl

/-- A solver oracle used by the concrete witnesses: it always returns
the 1 × 1 state trajectory `[[0]]`, the control trajectory `[[0]]` and
cost `7`. -/
def tool0 : MpcTool := ⟨fun _ _ _ _ _ _ _ _ _ _ => ([[0]], [[0]], 7)⟩

/-- Solve configuration used by the concrete witnesses (1-dimensional
weights, horizon 3, no control bounds). -/
def cfg0 : SolveCfg :=
  ⟨tool0, ⟨1, 1, fun _ _ => 1⟩, ⟨1, 1, fun _ _ => 1⟩, ⟨1, 1, fun _ _ => 1⟩, 3, none, none⟩

/-- A one-agent system, already consistently evaluated (its single
cluster holds `agent0`, the goal is the origin), used by the concrete
witnesses. -/
def sys0 : MultiAgentSystem :=
  ⟨1, 1, 1, [[0]], [0], [agent0], "hierarchy", [2], 0, 0, [0], 1,
   [⟨[(0, agent0)], 1, [[0]], [0]⟩], [[0]]⟩

/-- Witness for C2 at the one-agent system `sys0`. -/
theorem distributed_mpc_update_witness :
    (distState libs0 cfg0 sys0 1).agents.getD 0 dummyAgent
      = cfg0.commit sys0.system_goal (sys0.agents.getD 0 dummyAgent) := by
  refine (distributed_mpc_update libs0 cfg0 sys0 rfl ?_).2.2.1 0 (by decide)
  intro adx h
  have h1 : adx = 0 := by
    have : sys0.agents.length = 1 := rfl
    omega
  subst h1
  rfl

/-! ## Infrastructure for the joint (centralized) MPC theorem (C1) -/

@[simp] lemma setBlock_entry (M : PyMat) (r c : Nat) (Blk : PyMat) (dr dc i j : Nat) :
    (M.setBlock r c Blk dr dc).entry i j
      = if r ≤ i ∧ i < r + dr ∧ c ≤ j ∧ j < c + dc then Blk.entry (i - r) (j - c)
        else M.entry i j := rfl

lemma block_window (D n i : Nat) (hD : 0 < D) :
    i / D = n ↔ n * D ≤ i ∧ i < n * D + D := by
  constructor
  · rintro rfl
    exact ⟨Nat.div_mul_le_self i D, Nat.lt_div_mul_add hD⟩
  · rintro ⟨h1, h2⟩
    exact Nat.div_eq_of_lt_le (by omega) (by rw [Nat.succ_mul]; omega)

lemma sub_block (D i : Nat) : i - i / D * D = i % D := by
  have h := Nat.div_add_mod i D
  have h2 : D * (i / D) = i / D * D := Nat.mul_comm _ _
  omega

/-- Entrywise description of the slice-assignment loop that installs one
`Dr × Dc` block per index: the result is block-diagonal over the block
grid. -/
lemma foldl_setBlock_entry (Dr Dc : Nat) (hDr : 0 < Dr) (hDc : 0 < Dc)
    (f : Nat → PyMat) (n : Nat) (M : PyMat) (i j : Nat) :
    ((List.range n).foldl
        (fun Mac adx => Mac.setBlock (adx * Dr) (adx * Dc) (f adx) Dr Dc) M).entry i j
      = if i / Dr = j / Dc ∧ i / Dr < n
          then (f (i / Dr)).entry (i % Dr) (j % Dc)
          else M.entry i j := by
  induction n with
  | zero => simp
  | succ n ih =>
      rw [List.range_succ, List.foldl_append, List.foldl_cons, List.foldl_nil,
        setBlock_entry, ih]
      by_cases hblk : n * Dr ≤ i ∧ i < n * Dr + Dr ∧ n * Dc ≤ j ∧ j < n * Dc + Dc
      · have hi : i / Dr = n := (block_window Dr n i hDr).2 ⟨hblk.1, hblk.2.1⟩
        have hj : j / Dc = n := (block_window Dc n j hDc).2 ⟨hblk.2.2.1, hblk.2.2.2⟩
        rw [if_pos hblk, if_pos ⟨hi.trans hj.symm, by omega⟩]
        have h1 : i - n * Dr = i % Dr := by rw [← hi]; exact sub_block Dr i
        have h2 : j - n * Dc = j % Dc := by rw [← hj]; exact sub_block Dc j
        rw [h1, h2, hi]
      · rw [if_neg hblk]
        by_cases hc : i / Dr = j / Dc ∧ i / Dr < n
        · rw [if_pos hc, if_pos ⟨hc.1, by omega⟩]
        · rw [if_neg hc, if_neg ?_]
          rintro ⟨h1, h2⟩
          rcases Nat.lt_or_ge (i / Dr) n with h3 | h3
          · exact hc ⟨h1, h3⟩
          · have hi : i / Dr = n := by omega
            have hj : j / Dc = n := by rw [← h1]; exact hi
            have hbi := (block_window Dr n i hDr).1 hi
            have hbj := (block_window Dc n j hDc).1 hj
            exact hblk ⟨hbi.1, hbi.2, hbj.1, hbj.2⟩

/-- `np.flatten` of a matrix with rows of width `D`: entry `k` is entry
`k % D` of row `k / D`. -/
lemma flatten_getD (rows : List (List ℚ)) (D : Nat) (hD : 0 < D)
    (h : ∀ r ∈ rows, r.length = D) (k : Nat) (hk : k < rows.length * D) :
    rows.flatten.getD k 0 = (rows.getD (k / D) []).getD (k % D) 0 := by
  induction rows generalizing k with
  | nil => simp at hk
  | cons r rs ih =>
      have hr : r.length = D := h r (by simp)
      rw [List.length_cons, Nat.succ_mul] at hk
      rw [List.flatten_cons]
      rcases Nat.lt_or_ge k D with hkD | hkD
      · rw [List.getD_append _ _ _ _ (by omega)]
        rw [Nat.div_eq_of_lt hkD, Nat.mod_eq_of_lt hkD]
        rfl
      · obtain ⟨m, rfl⟩ : ∃ m, k = D + m := ⟨k - D, by omega⟩
        rw [List.getD_append_right _ _ _ _ (by omega)]
        have hstep : D + m - r.length = m := by omega
        rw [hstep, ih (fun r hr => h r (by simp [hr])) m (by omega)]
        have hdiv : (D + m) / D = m / D + 1 := by
          rw [Nat.add_comm D m]
          exact Nat.add_div_right m hD
        have hmod : (D + m) % D = m % D := Nat.add_mod_left D m
        rw [hdiv, hmod]
        rfl

lemma listSlice_length (v : List ℚ) (a b : Nat) :
    (listSlice v a b).length = min (b - a) (v.length - a) := by
  simp [listSlice]

/-- The commit loop of `update_system_mpc`: each agent in turn receives
its slice `v[adx·D : (adx+1)·D]` of a fixed vector `v` through
`set_state`. -/
lemma slice_commit_fold (v : List ℚ) (D : Nat) (l : List LinearAgentNd)
    (hlen : ∀ adx, adx < l.length →
      (listSlice v (adx * D) ((adx + 1) * D)).length
        = (l.getD adx dummyAgent).state.length) :
    ∀ m, m ≤ l.length →
      (List.range m).foldlM
        (fun (ags : List LinearAgentNd) adx => do
          let agent := ags.getD adx dummyAgent
          let agent' ← agent.set_state (listSlice v (adx * D) ((adx + 1) * D))
          pure (ags.set adx agent'))
        l
      = .ok (commitUpTo
          (fun adx ag => { ag with state := listSlice v (adx * D) ((adx + 1) * D) })
          m l) := by
  intro m
  induction m with
  | zero =>
      intro _
      rw [commitUpTo_zero]
      rfl
  | succ m ih =>
      intro hm
      rw [List.range_succ, List.foldlM_append, ih (by omega)]
      simp only [List.foldlM_cons, List.foldlM_nil, exceptOk_bind]
      have hag : (commitUpTo
          (fun adx ag => { ag with state := listSlice v (adx * D) ((adx + 1) * D) })
          m l).getD m dummyAgent = l.getD m dummyAgent :=
        commitUpTo_getD_ge _ m m l le_rfl
      rw [hag]
      have hsetOk : (l.getD m dummyAgent).set_state (listSlice v (m * D) ((m + 1) * D))
          = .ok { l.getD m dummyAgent with
              state := listSlice v (m * D) ((m + 1) * D) } := by
        rw [LinearAgentNd.set_state, if_pos (hlen m (by omega)).symm]
      rw [hsetOk]
      simp only [exceptOk_bind]
      rw [commitUpTo_set_succ _ m l (by omega)]
      rfl

@[simp] lemma setBlock_rows (M : PyMat) (r c : Nat) (Blk : PyMat) (dr dc : Nat) :
    (M.setBlock r c Blk dr dc).rows = M.rows := rfl

@[simp] lemma setBlock_cols (M : PyMat) (r c : Nat) (Blk : PyMat) (dr dc : Nat) :
    (M.setBlock r c Blk dr dc).cols = M.cols := rfl

lemma foldl_setBlock_dims (l : List Nat) (M : PyMat) (f : Nat → PyMat)
    (Dr Dc : Nat) (pr pc : Nat → Nat) :
    ((l.foldl (fun Mac adx => Mac.setBlock (pr adx) (pc adx) (f adx) Dr Dc) M)).rows
        = M.rows
      ∧ ((l.foldl (fun Mac adx => Mac.setBlock (pr adx) (pc adx) (f adx) Dr Dc) M)).cols
        = M.cols := by
  induction l generalizing M with
  | nil => exact ⟨rfl, rfl⟩
  | cons a l ih => rw [List.foldl_cons]; exact ih _

lemma buildJointA_rows (s : MultiAgentSystem) :
    (buildJointA s).rows = s.agent_dim * s.n_agents
    ∧ (buildJointA s).cols = s.agent_dim * s.n_agents := by
  rw [buildJointA]
  exact foldl_setBlock_dims (List.range s.agents.length) _
    (fun adx => (s.agents.getD adx dummyAgent).A) s.agent_dim s.agent_dim
    (fun adx => adx * s.agent_dim) (fun adx => adx * s.agent_dim)

lemma buildJointB_rows (s : MultiAgentSystem) :
    (buildJointB s).rows = s.agent_dim * s.n_agents
    ∧ (buildJointB s).cols = s.control_dim * s.n_agents := by
  rw [buildJointB]
  exact foldl_setBlock_dims (List.range s.agents.length) _
    (fun adx => (s.agents.getD adx dummyAgent).B) s.agent_dim s.control_dim
    (fun adx => adx * s.agent_dim) (fun adx => adx * s.control_dim)

/-- Spec-side (C1): the single joint solve over the block-diagonal
system: dynamics `(buildJointA, buildJointB)`, flattened full state,
goal tiled to `n_agents` copies. -/
def jointSolve (cfg : SolveCfg) (s : MultiAgentSystem) :
    List (List ℚ) × List (List ℚ) × ℚ :=
  cfg.tool.use_modeling_tool (buildJointA s) (buildJointB s) cfg.n_t cfg.Q cfg.R cfg.P
    s.full_system_state.flatten ((List.replicate s.n_agents s.system_goal).flatten)
    cfg.umax cfg.umin

/-- Spec-side (C1): agent `adx` receives its slice of the terminal
column of the joint state trajectory. -/
def jointCommit (cfg : SolveCfg) (s : MultiAgentSystem) (adx : Nat)
    (ag : LinearAgentNd) : LinearAgentNd :=
  { ag with state := (listSlice (lastCol (jointSolve cfg s).1)
      (adx * s.agent_dim) ((adx + 1) * s.agent_dim)) }

/-- Spec-side (C1): every agent committed with its slice. -/
def jointAgents (cfg : SolveCfg) (s : MultiAgentSystem) : List LinearAgentNd :=
  commitUpTo (jointCommit cfg s) s.agents.length s.agents

/-- C1.  `update_system_mpc` builds one block-diagonal joint dynamics
pair whose `adx`-th diagonal blocks are agent `adx`'s `A` and `B`
(entrywise characterization below), flattens the full system state
row-major into one vector, tiles the goal to `n_agents` copies, performs
ONE single-scale solve over the joint system, commits agent `adx`'s
slice of the terminal column of the returned state trajectory to agent
`adx`, re-evaluates the system state exactly once at the end (the
returned state is a single re-evaluation of the committed agents), and
returns the resulting average goal distance together with the joint
cost. -/
theorem joint_mpc_update (libs : ExternalLibs) (cfg : SolveCfg) (s : MultiAgentSystem)
    (halgo : s.clust_algo = "hierarchy")
    (hD : 0 < s.agent_dim) (hC : 0 < s.control_dim)
    (hstate : ∀ adx, adx < s.agents.length →
      (s.agents.getD adx dummyAgent).state.length = s.agent_dim)
    (htraj : s.agents.length * s.agent_dim ≤ ((jointSolve cfg s).1).length)
    (hfs : ∀ r ∈ s.full_system_state, r.length = s.agent_dim)
    (hg : 0 < s.system_goal.length) :
    ((buildJointA s).rows = s.agent_dim * s.n_agents
      ∧ (buildJointA s).cols = s.agent_dim * s.n_agents
      ∧ ∀ i j, (buildJointA s).entry i j
          = if i / s.agent_dim = j / s.agent_dim ∧ i / s.agent_dim < s.agents.length
            then (s.agents.getD (i / s.agent_dim) dummyAgent).A.entry
              (i % s.agent_dim) (j % s.agent_dim)
            else 0)
    ∧ ((buildJointB s).rows = s.agent_dim * s.n_agents
      ∧ (buildJointB s).cols = s.control_dim * s.n_agents
      ∧ ∀ i j, (buildJointB s).entry i j
          = if i / s.agent_dim = j / s.control_dim ∧ i / s.agent_dim < s.agents.length
            then (s.agents.getD (i / s.agent_dim) dummyAgent).B.entry
              (i % s.agent_dim) (j % s.control_dim)
            else 0)
    ∧ (∀ k, k < s.full_system_state.length * s.agent_dim →
        s.full_system_state.flatten.getD k 0
          = (s.full_system_state.getD (k / s.agent_dim) []).getD (k % s.agent_dim) 0)
    ∧ (∀ k, k < s.n_agents * s.system_goal.length →
        ((List.replicate s.n_agents s.system_goal).flatten).getD k 0
          = s.system_goal.getD (k % s.system_goal.length) 0)
    ∧ MultiAgentSystem.update_system_mpc libs cfg.tool s cfg.Q cfg.R cfg.P cfg.n_t
        cfg.umax cfg.umin
      = .ok (reEvalH libs (withAgents s (jointAgents cfg s)),
          (reEvalH libs (withAgents s (jointAgents cfg s))).avg_goal_dist,
          (jointSolve cfg s).2.2)
    ∧ (∀ adx, adx < s.agents.length →
        (jointAgents cfg s).getD adx dummyAgent
          = jointCommit cfg s adx (s.agents.getD adx dummyAgent))
    ∧ (reEvalH libs (withAgents s (jointAgents cfg s))).full_system_state
        = (jointAgents cfg s).map (·.state) := by
  have hslice : ∀ adx, adx < s.agents.length →
      (listSlice (lastCol (jointSolve cfg s).1)
        (adx * s.agent_dim) ((adx + 1) * s.agent_dim)).length
        = (s.agents.getD adx dummyAgent).state.length := by
    intro adx hadx
    rw [listSlice_length, lastCol_length, hstate adx hadx]
    have h1 : (adx + 1) * s.agent_dim = adx * s.agent_dim + s.agent_dim :=
      Nat.succ_mul adx s.agent_dim
    have h2 : (adx + 1) * s.agent_dim ≤ s.agents.length * s.agent_dim :=
      Nat.mul_le_mul_right _ (by omega)
    have h3 := htraj
    omega
  refine ⟨⟨(buildJointA_rows s).1, (buildJointA_rows s).2, ?_⟩,
    ⟨(buildJointB_rows s).1, (buildJointB_rows s).2, ?_⟩, ?_, ?_, ?_, ?_, ?_⟩
  · intro i j
    rw [buildJointA,
      foldl_setBlock_entry s.agent_dim s.agent_dim hD hD _ s.agents.length _ i j]
    rfl
  · intro i j
    rw [buildJointB,
      foldl_setBlock_entry s.agent_dim s.control_dim hD hC _ s.agents.length _ i j]
    rfl
  · intro k hk
    exact flatten_getD s.full_system_state s.agent_dim hD hfs k hk
  · intro k hk
    rw [flatten_getD (List.replicate s.n_agents s.system_goal) s.system_goal.length hg
      (fun r hr => by rw [List.eq_of_mem_replicate hr]) k
      (by rwa [List.length_replicate])]
    have hdiv : k / s.system_goal.length < s.n_agents :=
      (Nat.div_lt_iff_lt_mul hg).2 hk
    have hrep : (List.replicate s.n_agents s.system_goal).getD
        (k / s.system_goal.length) [] = s.system_goal := by
      have hlt : k / s.system_goal.length
          < (List.replicate s.n_agents s.system_goal).length := by
        rw [List.length_replicate]; exact hdiv
      rw [List.getD_eq_getElem _ _ hlt, List.getElem_replicate]
    rw [hrep]
  · have hcall : cfg.tool.use_modeling_tool (buildJointA s) (buildJointB s) cfg.n_t
        cfg.Q cfg.R cfg.P s.full_system_state.flatten
        ((List.replicate s.n_agents s.system_goal).flatten) cfg.umax cfg.umin
        = jointSolve cfg s := rfl
    have hfold := slice_commit_fold (lastCol (jointSolve cfg s).1) s.agent_dim s.agents
      hslice s.agents.length le_rfl
    have hre := re_eval_system_hierarchy libs (withAgents s (jointAgents cfg s))
      (by rw [withAgents_clust_algo]; exact halgo)
    dsimp only [MultiAgentSystem.update_system_mpc]
    rw [hcall, hfold]
    simp only [exceptOk_bind]
    rw [show commitUpTo
        (fun adx ag => { ag with state := (listSlice (lastCol (jointSolve cfg s).1)
          (adx * s.agent_dim) ((adx + 1) * s.agent_dim)) })
        s.agents.length s.agents = jointAgents cfg s from rfl]
    rw [hre]
    simp only [exceptOk_bind]
    rfl
  · intro adx hadx
    exact commitUpTo_getD_lt _ _ _ _ hadx hadx
  · rw [reEvalH_full_system_state, withAgents_agents]

/-- Witness for C1 at the one-agent system `sys0`. -/
theorem joint_mpc_update_witness :
    (jointAgents cfg0 sys0).getD 0 dummyAgent
      = jointCommit cfg0 sys0 0 (sys0.agents.getD 0 dummyAgent) := by
  have hstate0 : ∀ adx, adx < sys0.agents.length →
      (sys0.agents.getD adx dummyAgent).state.length = sys0.agent_dim := by
    intro adx h
    have h1 : adx = 0 := by
      have h2 : sys0.agents.length = 1 := rfl
      omega
    subst h1
    rfl
  exact (joint_mpc_update libs0 cfg0 sys0 rfl (by decide) (by decide) hstate0
    (by decide) (by decide) (by decide)).2.2.2.2.2.1 0 (by decide)

/-! ## Claim theorems: the frame property (C9) -/

/-- Two agents with the same transition matrices and dimension. -/
def sameDynamics (a b : LinearAgentNd) : Prop :=
  b.A = a.A ∧ b.B = a.B ∧ b.agent_dim = a.agent_dim

lemma sameDynamics_refl (a : LinearAgentNd) : sameDynamics a a := ⟨rfl, rfl, rfl⟩

lemma sameDynamics_trans {a b c : LinearAgentNd}
    (h1 : sameDynamics a b) (h2 : sameDynamics b c) : sameDynamics a c :=
  ⟨h2.1.trans h1.1, h2.2.1.trans h1.2.1, h2.2.2.trans h1.2.2⟩

/-- Pointwise preservation of dynamics between two agent lists. -/
def sameDynamicsList (xs ys : List LinearAgentNd) : Prop :=
  ys.length = xs.length
  ∧ ∀ i, sameDynamics (xs.getD i dummyAgent) (ys.getD i dummyAgent)

lemma sameDynamicsList_refl (xs : List LinearAgentNd) : sameDynamicsList xs xs :=
  ⟨rfl, fun _ => sameDynamics_refl _⟩

lemma set_state_sameDynamics (ag : LinearAgentNd) (v : List ℚ) (ag' : LinearAgentNd)
    (h : ag.set_state v = .ok ag') : sameDynamics ag ag' := by
  rw [LinearAgentNd.set_state] at h
  split at h
  · cases h; exact ⟨rfl, rfl, rfl⟩
  · cases h

lemma sameDynamicsList_set (xs ys : List LinearAgentNd) (i : Nat) (ag : LinearAgentNd)
    (h : sameDynamicsList xs ys) (hag : sameDynamics (xs.getD i dummyAgent) ag) :
    sameDynamicsList xs (ys.set i ag) := by
  refine ⟨by rw [List.length_set]; exact h.1, fun k => ?_⟩
  rcases eq_or_ne k i with rfl | hne
  · rcases Nat.lt_or_ge k ys.length with hk | hk
    · rw [List.getD_eq_getElem (ys.set k ag) dummyAgent (by rwa [List.length_set]),
        List.getElem_set_self]
      exact hag
    · rw [List.set_eq_of_length_le hk]
      exact h.2 k
  · rcases Nat.lt_or_ge k ys.length with hk | hk
    · rw [List.getD_eq_getElem (ys.set i ag) dummyAgent (by rwa [List.length_set]),
        List.getElem_set_ne (by omega),
        ← List.getD_eq_getElem ys dummyAgent hk]
      exact h.2 k
    · have hx : xs.length ≤ k := by
        have := h.1
        omega
      rw [List.getD_eq_default (ys.set i ag) dummyAgent (by rwa [List.length_set]),
        List.getD_eq_default xs dummyAgent hx]
      exact sameDynamics_refl _

/-- Any successful `_re_eval_system` leaves the agent collection itself
untouched (it only reads the agents' states). -/
lemma re_eval_system_agents (libs : ExternalLibs) (s s' : MultiAgentSystem)
    (h : s.re_eval_system libs = .ok s') : s'.agents = s.agents := by
  rw [MultiAgentSystem.re_eval_system, MultiAgentSystem.re_eval_clusters] at h
  split at h
  · cases h; simp [rebuildClusters]
  · split at h
    · split at h
      · cases h; simp [rebuildClusters]
      · cases h
    · cases h

/-- An `Except`-valued fold preserves any invariant its body preserves. -/
lemma foldlM_preserves {α : Type} (P : α → Prop) (f : α → Nat → Except String α)
    (hf : ∀ a n a', f a n = .ok a' → P a → P a') :
    ∀ (l : List Nat) (a a' : α), l.foldlM f a = .ok a' → P a → P a' := by
  intro l
  induction l with
  | nil =>
      intro a a' h hP
      rw [List.foldlM_nil, show (pure a : Except String α) = .ok a from rfl] at h
      cases h
      exact hP
  | cons x l ih =>
      intro a a' h hP
      rw [List.foldlM_cons] at h
      cases hfa : f a x with
      | error e => rw [hfa, exceptError_bind] at h; cases h
      | ok b =>
          rw [hfa, exceptOk_bind] at h
          exact ih b a' h (hf a x b hfa hP)

lemma bind_ok_decomp {α β : Type} (e : Except String α) (f : α → Except String β) (b : β)
    (h : e >>= f = .ok b) : ∃ a, e = .ok a ∧ f a = .ok b := by
  cases e with
  | error s => rw [exceptError_bind] at h; cases h
  | ok a => rw [exceptOk_bind] at h; exact ⟨a, rfl, h⟩

/-- One iteration of the distributed-MPC loop never changes any agent's
`A`, `B` or dimension. -/
lemma distLoopBody_preserves (libs : ExternalLibs) (tool : MpcTool) (Q R P : PyMat)
    (n_t : Nat) (umax umin : Option ℚ) (base : List LinearAgentNd)
    (a : MultiAgentSystem × ℚ) (n : Nat) (a' : MultiAgentSystem × ℚ)
    (h : distLoopBody libs tool Q R P n_t umax umin a n = .ok a')
    (hP : sameDynamicsList base a.1.agents) : sameDynamicsList base a'.1.agents := by
  dsimp only [distLoopBody] at h
  obtain ⟨agent', hset, h2⟩ := bind_ok_decomp _ _ _ h
  obtain ⟨st, hre, h3⟩ := bind_ok_decomp _ _ _ h2
  obtain rfl : (st, a.2 + _) = a' := Except.ok.inj h3
  show sameDynamicsList base st.agents
  rw [re_eval_system_agents libs _ _ hre, withAgents_agents]
  exact sameDynamicsList_set base a.1.agents n agent' hP
    (sameDynamics_trans (hP.2 n) (set_state_sameDynamics _ _ _ hset))

/-- C9.  Every mutating operation — `propagate_input` and `set_state` on
an agent, `propagate_input` on a cluster, and the three system updates
(`update_system_simplified`, `update_system_mpc_distributed`,
`update_system_mpc`) — leaves every agent's `A` matrix, `B` matrix and
agent dimension unchanged; only states and the orchestrator's derived
fields can change. -/
theorem mutators_preserve_dynamics :
    (∀ (ag : LinearAgentNd) (u : List ℚ), sameDynamics ag (ag.propagate_input u))
    ∧ (∀ (ag : LinearAgentNd) (v : List ℚ) (ag' : LinearAgentNd),
        ag.set_state v = .ok ag' → sameDynamics ag ag')
    ∧ (∀ (cl : LinearClusterNd) (u : List ℚ) (D i : Nat),
        sameDynamics ((cl.agents.getD i (0, dummyAgent)).2)
          (((cl.propagate_input u D).agents.getD i (0, dummyAgent)).2))
    ∧ (∀ (libs : ExternalLibs) (s : MultiAgentSystem) (step : ℚ)
        (s' : MultiAgentSystem),
        MultiAgentSystem.update_system_simplified libs s step = .ok s' →
        sameDynamicsList s.agents s'.agents)
    ∧ (∀ (libs : ExternalLibs) (tool : MpcTool) (s : MultiAgentSystem) (Q R P : PyMat)
        (n_t : Nat) (umax umin : Option ℚ) (s' : MultiAgentSystem) (d c : ℚ),
        MultiAgentSystem.update_system_mpc_distributed libs tool s Q R P n_t umax umin
          = .ok (s', d, c) →
        sameDynamicsList s.agents s'.agents)
    ∧ (∀ (libs : ExternalLibs) (tool : MpcTool) (s : MultiAgentSystem) (Q R P : PyMat)
        (n_t : Nat) (umax umin : Option ℚ) (s' : MultiAgentSystem) (d c : ℚ),
        MultiAgentSystem.update_system_mpc libs tool s Q R P n_t umax umin
          = .ok (s', d, c) →
        sameDynamicsList s.agents s'.agents) := by
  refine ⟨fun ag u => ⟨rfl, rfl, rfl⟩, fun ag v ag' h => set_state_sameDynamics ag v ag' h,
    ?_, ?_, ?_, ?_⟩
  · intro cl u D i
    show sameDynamics ((cl.agents.getD i (0, dummyAgent)).2)
      (((cl.agents.map fun p => (p.1, p.2.propagate_input u)).getD i (0, dummyAgent)).2)
    rcases Nat.lt_or_ge i cl.agents.length with hi | hi
    · rw [List.getD_eq_getElem (cl.agents.map fun p => (p.1, p.2.propagate_input u))
          (0, dummyAgent) (by simpa using hi),
        List.getElem_map, List.getD_eq_getElem cl.agents (0, dummyAgent) hi]
      exact ⟨rfl, rfl, rfl⟩
    · rw [List.getD_eq_default cl.agents (0, dummyAgent) hi,
        List.getD_eq_default _ _ (by simpa using hi)]
      exact sameDynamics_refl _
  · intro libs s step s' h
    rw [MultiAgentSystem.update_system_simplified] at h
    rcases hn : s.n_clusters with _ | k
    · rw [hn] at h
      rw [show List.range 0 = ([] : List Nat) from rfl, List.foldlM_nil,
        show (pure s : Except String MultiAgentSystem) = .ok s from rfl] at h
      cases h
      exact sameDynamicsList_refl _
    · rw [hn, List.range_succ_eq_map, List.foldlM_cons] at h
      simp only [intKeyCentroid, exceptError_bind] at h
      cases h
  · intro libs tool s Q R P n_t umax umin s' d c h
    dsimp only [MultiAgentSystem.update_system_mpc_distributed] at h
    obtain ⟨acc, hfold, hrest⟩ := bind_ok_decomp _ _ _ h
    obtain ⟨rfl, -, -⟩ := Prod.mk.injEq .. ▸ Except.ok.inj hrest
    exact foldlM_preserves (fun x => sameDynamicsList s.agents x.1.agents) _
      (fun a n a' hstep hP =>
        distLoopBody_preserves libs tool Q R P n_t umax umin s.agents a n a' hstep hP)
      _ _ _ hfold (sameDynamicsList_refl _)
  · intro libs tool s Q R P n_t umax umin s' d c h
    dsimp only [MultiAgentSystem.update_system_mpc] at h
    obtain ⟨ags, hfold, hrest⟩ := bind_ok_decomp _ _ _ h
    obtain ⟨s1, hre, hpure⟩ := bind_ok_decomp _ _ _ hrest
    have htrip := Except.ok.inj hpure
    have hs1 : s1 = s' := congrArg Prod.fst htrip
    subst hs1
    have hags : sameDynamicsList s.agents ags := by
      refine foldlM_preserves (fun x => sameDynamicsList s.agents x) _
        (fun a n a' hstep hP => ?_) _ _ _ hfold (sameDynamicsList_refl _)
      obtain ⟨agent', hset, h3⟩ := bind_ok_decomp _ _ _ hstep
      obtain rfl : a.set n agent' = a' := Except.ok.inj h3
      exact sameDynamicsList_set s.agents a n agent' hP
        (sameDynamics_trans (hP.2 n) (set_state_sameDynamics _ _ _ hset))
    show sameDynamicsList s.agents s1.agents
    rw [re_eval_system_agents libs _ _ hre, withAgents_agents]
    exact hags

/-- A variant of `sys0` with an empty cluster map, on which the
simplified update is a no-op that succeeds. -/
def sysE : MultiAgentSystem :=
  ⟨1, 1, 1, [[0]], [0], [agent0], "hierarchy", [2], 0, 0, [0], 0, [], []⟩

/-- Witness for C9: each mutating operation applied at a concrete
agent/cluster/system, with every success hypothesis discharged by
computation. -/
theorem mutators_preserve_dynamics_witness :
    sameDynamics agent0 (agent0.propagate_input [2])
    ∧ sameDynamics agent0 ⟨agent0.A, agent0.B, [5], 1⟩
    ∧ sameDynamics (((⟨[(0, agent0)], 1, [[0]], [0]⟩ : LinearClusterNd)).agents.getD 0
          (0, dummyAgent)).2
        ((((⟨[(0, agent0)], 1, [[0]], [0]⟩ : LinearClusterNd)).propagate_input [1] 1
          |>.agents.getD 0 (0, dummyAgent)).2)
    ∧ sameDynamicsList sysE.agents sysE.agents
    ∧ sameDynamicsList sys0.agents sys0.agents
    ∧ sameDynamicsList sys0.agents sys0.agents :=
  ⟨mutators_preserve_dynamics.1 agent0 [2],
   mutators_preserve_dynamics.2.1 agent0 [5] ⟨agent0.A, agent0.B, [5], 1⟩ rfl,
   mutators_preserve_dynamics.2.2.1 ⟨[(0, agent0)], 1, [[0]], [0]⟩ [1] 1 0,
   mutators_preserve_dynamics.2.2.2.1 libs0 sysE (1/100) sysE rfl,
   mutators_preserve_dynamics.2.2.2.2.1 libs0 tool0 sys0 cfg0.Q cfg0.R cfg0.P 3
     none none sys0 0 7 (by with_unfolding_all rfl),
   mutators_preserve_dynamics.2.2.2.2.2 libs0 tool0 sys0 cfg0.Q cfg0.R cfg0.P 3
     none none sys0 0 7 (by with_unfolding_all rfl)⟩

/-- Witness for C4: at a concrete two-scale problem without coupling
weight, the meso initial-state constraint is in the constructed list and
is classified as non-micro by the theorem. -/
theorem mesocoupling_no_coupling_meso_only_witness :
    MesoConstr.isMicro MesoConstr.mesInit = false := by
  exact (mesocoupling_no_coupling_meso_only 1 1 1
    ⟨1, 1, fun _ _ => 0⟩ ⟨1, 1, fun _ _ => 0⟩ ⟨1, 1, fun _ _ => 0⟩ ⟨1, 1, fun _ _ => 0⟩
    ⟨1, 1, fun _ _ => 0⟩ 1 none none none none none none none none none none
    (fun _ => []) (fun _ => []) (fun _ => []) (fun _ => [])
    (fun _ => []) (fun _ => [])).1 MesoConstr.mesInit (by decide)

/-- Witness for C10: with three agent blocks (`nx = 3`, `adim = 1`), the
pair `(1, 2)` involving the last block is generated by
`conventional_solve` but not by `microcoupling_solve`. -/
theorem collision_pair_last_block_dropped_witness :
    ConvConstr.sep 0 1 2 ∈
      conventionalConstraints ⟨3, 1, fun _ _ => 0⟩ 1 1 none none none none (some 1)
    ∧ ConvConstr.sep 0 1 2 ∉
      microcouplingConstraints ⟨3, 1, fun _ _ => 0⟩ 1 1 none none none none (some 1) := by
  have h := collision_pair_last_block_dropped ⟨3, 1, fun _ _ => 0⟩ ⟨3, 1, fun _ _ => 0⟩
    1 1 1 1 ⟨1, 1, fun _ _ => 0⟩ 1 none none none none none none
    none none none none none none
  exact ⟨(h.1 0 1 2).2 (by decide), h.2.2.2.1 0 1 2 (by decide)⟩

end CoalControl
